import Mathlib

/-!
A verification development for the orange-agent conversation engine.

The engine consists of three modules: an event bus (publish/subscribe),
a conversation manager (append-only message log plus the next-action
state machine), and the agent driver (the turn loop that invokes the
LLM collaborator, validates and executes tool calls, and handles the
tool-confirmation protocol).

The definitions below are a shallow embedding of that code:

* JavaScript objects holding conversation state become explicit Lean
  structures threaded through the functions.
* `randomUUID()` message ids become a monotonic counter carried in the
  state (ids are only used as stable keys, never inspected).
* The mutually recursive turn loop (`processConversation`, `sendToLLM`,
  `validateAndProcessTools`, `executeNextTool`, `executeValidatedTool`)
  has no structural termination measure in the source, so the embedding
  takes a fuel parameter; running out of fuel is a distinguished
  `Outcome.out` result that models divergence, not an exception.
* JavaScript exceptions are modelled by the `Outcome.err` constructor,
  which carries the state at the throw point (in the source, mutations
  made before a throw persist).  `try`/`catch` becomes `tryCatchO`.
  The LLM collaborator's `invokeModel` and `processToolCalls` may throw;
  this is modelled by them returning `Except String _`.
* Event emission to subscribers is recorded as a trace of `Event`
  values in the state; the separate `emitRun` model covers the event
  bus's own handler-invocation semantics.
* JSON payloads of tool results are modelled by `JsVal`, which keeps
  the one field the engine ever inspects (`content.error`) and whether
  the payload was a string or an object (the manager wraps strings).
-/

namespace OrangeAgent

/-- Message kinds, from `MessageType` in the conversation manager. -/
inductive MessageType where
  | system
  | user
  | assistant
  | toolRequest
  | toolResult
  | info
deriving DecidableEq, Repr

/-- Next actions, from `NextAction` in the conversation manager. -/
inductive NextAction where
  | sendUserInputToLLM
  | waitForLocalUserInput
  | executeLocalTool
  | sendToolResultToLLM
deriving DecidableEq, Repr

/-- Tool inputs are opaque payloads; the engine never inspects them. -/
abbrev ToolInput := String

/-- A JSON value as far as the engine inspects it: either a plain string
or an object, of which only the `error` field is ever read
(`content.error` in `executeValidatedTool`); `none` models an absent
field. -/
inductive JsVal where
  | str : String → JsVal
  | obj : Option String → JsVal
deriving DecidableEq, Repr

/-- The `error` field of a JSON value; reading a field of a string
yields `undefined`, i.e. `none`. -/
def JsVal.errorField : JsVal → Option String
  | .str _ => none
  | .obj e => e

/-- A message of the conversation log.  The first `Nat` is the id.
Tool requests carry `toolName`, `toolUseId` and the input descriptor
(the source stores them both at top level and inside
`content[0].toolUse`; the embedding stores them once).  Tool results
carry `toolUseId`, the (wrapped) JSON content and the `error` field
passed to `addToolResultMessage`. -/
inductive Message where
  | system : Nat → String → Message
  | user : Nat → String → Message
  | assistant : Nat → String → Message
  | toolRequest : Nat → String → String → ToolInput → Message
  | toolResult : Nat → String → JsVal → Option String → Message
  | info : Nat → String → Message
deriving DecidableEq, Repr

/-- The `type` field of a message. -/
def Message.type : Message → MessageType
  | .system _ _ => .system
  | .user _ _ => .user
  | .assistant _ _ => .assistant
  | .toolRequest _ _ _ _ => .toolRequest
  | .toolResult _ _ _ _ => .toolResult
  | .info _ _ => .info

/-- The `toolUseId` field of a message (`none` models `undefined`). -/
def Message.toolUseId? : Message → Option String
  | .toolRequest _ _ t _ => some t
  | .toolResult _ t _ _ => some t
  | _ => none

/-- The `toolName` field of a tool-request message. -/
def Message.toolNameD : Message → String
  | .toolRequest _ n _ _ => n
  | _ => ""

/-- The `content[0].toolUse.input` of a tool-request message. -/
def Message.inputD : Message → ToolInput
  | .toolRequest _ _ _ i => i
  | _ => ""

/-- Textual content of a system/user/assistant/info message. -/
def Message.textContent : Message → String
  | .system _ c => c
  | .user _ c => c
  | .assistant _ c => c
  | .info _ c => c
  | _ => ""

/-- `addToolResultMessage` wraps string contents:
`typeof content === 'string' ? { result: content } : content`.  The
wrapping object has no `error` field. -/
def wrapJson : JsVal → JsVal
  | .str _ => .obj none
  | .obj e => .obj e

/-- `getNextActionForType` from the conversation manager: the switch
with an explicit case per substantive kind and a default of
`WAIT_FOR_LOCAL_USER_INPUT`. -/
def getNextActionForType : MessageType → NextAction
  | .user => .sendUserInputToLLM
  | .assistant => .waitForLocalUserInput
  | .toolRequest => .executeLocalTool
  | .toolResult => .sendToolResultToLLM
  | _ => .waitForLocalUserInput

/-- `getNextAction` from the conversation manager: switch on the last
message's type; for an `info` tail, scan backwards from index
`length - 2` for the first non-info message and dispatch on its type,
defaulting to waiting when none exists. -/
def getNextAction (log : List Message) : NextAction :=
  match log.getLast? with
  | none => .waitForLocalUserInput
  | some m =>
    match m.type with
    | .user => .sendUserInputToLLM
    | .assistant => .waitForLocalUserInput
    | .toolRequest => .executeLocalTool
    | .toolResult => .sendToolResultToLLM
    | .system => .waitForLocalUserInput
    | .info =>
      match log.dropLast.reverse.find? (fun x => x.type != .info) with
      | some p => getNextActionForType p.type
      | none => .waitForLocalUserInput

/-- The specification's state table, written from the spec's words:
the next action is a function of the kind of the most recent
non-`info` message (walking backwards past trailing `info` entries);
empty log or `system` waits for the user, `user` invokes the model,
`assistant` waits, `tool-request` runs the tool, `tool-result`
invokes the model. -/
def specNextAction (log : List Message) : NextAction :=
  match log.reverse.find? (fun m => m.type != .info) with
  | none => .waitForLocalUserInput
  | some m =>
    match m.type with
    | .system => .waitForLocalUserInput
    | .user => .sendUserInputToLLM
    | .assistant => .waitForLocalUserInput
    | .toolRequest => .executeLocalTool
    | .toolResult => .sendToolResultToLLM
    | .info => .waitForLocalUserInput

/-- A tool collaborator, as the engine consumes it: `getName()`,
`validate(params)` and `requiresAcceptance(params)`.  The engine never
calls `execute` itself; execution is delegated to the LLM
collaborator's `processToolCalls`. -/
structure Tool where
  name : String
  validate : ToolInput → Bool × Option String
  requiresAcceptance : ToolInput → Bool

/-- A tool call descriptor: the shape of entries in a model response's
`toolCalls` and of the stored `content[0].toolUse`. -/
structure ToolCall where
  name : String
  toolUseId : String
  input : ToolInput
deriving DecidableEq, Repr

/-- A model response: `{type: 'ASSISTANT_TOOL_REQUEST', toolCalls}` or
any other shape, from which only `content` is read. -/
inductive LLMResponse where
  | assistantToolRequest : List ToolCall → LLMResponse
  | content : String → LLMResponse
deriving DecidableEq, Repr

/-- One entry of the array returned by `processToolCalls`: the engine
reads `res.toolUseId` and `res.content` (and `content.error`). -/
structure ToolCallResult where
  toolUseId : String
  content : JsVal
deriving DecidableEq, Repr

/-- The LLM collaborator.  `σ` is its private internal state; a result
of `Except.error` models the collaborator throwing.  The state
component is returned even on a throw, since a JavaScript object's
mutations persist past an exception. -/
structure LLMBehavior (σ : Type) where
  invokeModel : σ → List Message → σ × Except String LLMResponse
  processToolCalls : σ → List ToolCall → σ × Except String (List ToolCallResult)

/-- The agent's immutable configuration (`createAgent` closure). -/
structure Ctx (σ : Type) where
  tools : List Tool
  acceptAll : Bool
  llm : LLMBehavior σ

/-- Events emitted on the event bus, as the engine publishes them.
Payload fields that the source fills with `Date.now()` timestamps or
the constant `dangerous: true` are dropped; `errorEvt` covers both the
`error` event of `sendToLLM`'s catch (no tool fields) and
`emitToolError` (tool fields present; its `toolName` is `none` when the
source reads the absent `name` property of a stored message). -/
inductive Event where
  | userSent : String → Event
  | assistantReceive : String → Event
  | toolStart : String → String → ToolInput → Event
  | toolConfirmation : String → String → ToolInput → Event
  | toolEnd : String → String → Event
  | errorEvt : Option String → Option String → Option String → Event
deriving DecidableEq, Repr

/-- The mutable session state: the conversation manager's ordered log,
the id counter replacing `randomUUID()`, the trace of emitted events,
the LLM collaborator's private state, and the trace of
`processToolCalls` invocations (one entry per call the engine makes). -/
structure AgentState (σ : Type) where
  log : List Message
  nextId : Nat
  events : List Event
  llmState : σ
  calls : List ToolCall

/-- Result of one engine entry point: normal return, an uncaught
JavaScript exception carrying the state at the throw point, or fuel
exhaustion (modelling a non-terminating recursion). -/
inductive Outcome (σ : Type) where
  | ok : AgentState σ → Outcome σ
  | err : AgentState σ → String → Outcome σ
  | out : Outcome σ

/-- Sequencing: run the continuation on normal return, propagate a
thrown exception or fuel exhaustion. -/
def Outcome.bind {σ : Type} : Outcome σ → (AgentState σ → Outcome σ) → Outcome σ
  | .ok st, f => f st
  | .err st e, _ => .err st e
  | .out, _ => .out

/-- `try`/`catch`: the handler receives the state at the throw point
and the error message. -/
def tryCatchO {σ : Type} : Outcome σ → (AgentState σ → String → Outcome σ) → Outcome σ
  | .err st e, h => h st e
  | o, _ => o

/-- Whether an outcome is an uncaught exception. -/
def Outcome.isErr {σ : Type} : Outcome σ → Bool
  | .err _ _ => true
  | _ => false

/-- Record an event emission (the notification trace). -/
def emitEvent {σ : Type} (st : AgentState σ) (e : Event) : AgentState σ :=
  { st with events := st.events ++ [e] }

/-- `addSystemMessage`. -/
def addSystemMessage {σ : Type} (st : AgentState σ) (c : String) : AgentState σ :=
  { st with log := st.log ++ [.system st.nextId c], nextId := st.nextId + 1 }

/-- `addUserMessage`. -/
def addUserMessage {σ : Type} (st : AgentState σ) (c : String) : AgentState σ :=
  { st with log := st.log ++ [.user st.nextId c], nextId := st.nextId + 1 }

/-- `addAssistantMessage`. -/
def addAssistantMessage {σ : Type} (st : AgentState σ) (c : String) : AgentState σ :=
  { st with log := st.log ++ [.assistant st.nextId c], nextId := st.nextId + 1 }

/-- `addToolRequestMessage`. -/
def addToolRequestMessage {σ : Type} (st : AgentState σ) (toolName toolUseId : String)
    (input : ToolInput) : AgentState σ :=
  { st with log := st.log ++ [.toolRequest st.nextId toolName toolUseId input],
            nextId := st.nextId + 1 }

/-- `addToolResultMessage`: string contents are wrapped into an object;
the `error` argument is stored as passed. -/
def addToolResultMessage {σ : Type} (st : AgentState σ) (toolUseId : String)
    (content : JsVal) (error : Option String) : AgentState σ :=
  { st with log := st.log ++ [.toolResult st.nextId toolUseId (wrapJson content) error],
            nextId := st.nextId + 1 }

/-- `needsConfirmation` from the agent: a call is gated when it names
`execute_bash` and the tool's own `requiresAcceptance(input)` holds,
or when it names `fs_write` (unconditionally); every other tool name
is never gated, whatever the tool's own predicate says. -/
def needsConfirmation (toolCall : ToolCall) (tool : Tool) : Bool :=
  if toolCall.name == "execute_bash" && tool.requiresAcceptance toolCall.input then
    true
  else if toolCall.name == "fs_write" then
    true
  else
    false

mutual

/-- `processConversation`: dispatch on the conversation's next action;
waiting for user input returns control to the caller. -/
def processConversation {σ : Type} (ctx : Ctx σ) (fuel : Nat) (st : AgentState σ) :
    Outcome σ :=
  match fuel with
  | 0 => .out
  | n + 1 =>
    match getNextAction st.log with
    | .sendUserInputToLLM => sendToLLM ctx n st
    | .sendToolResultToLLM => sendToLLM ctx n st
    | .executeLocalTool => executeNextTool ctx n st
    | .waitForLocalUserInput => .ok st

/-- `sendToLLM`: invoke the model on the full history inside a `try`;
a tool-request response goes through `validateAndProcessTools`, other
responses are appended as an assistant message with an
`assistantReceive` event; in both cases processing then continues
unconditionally.  The `catch` emits an `error` event and returns
normally. -/
def sendToLLM {σ : Type} (ctx : Ctx σ) (fuel : Nat) (st : AgentState σ) : Outcome σ :=
  match fuel with
  | 0 => .out
  | n + 1 =>
    tryCatchO
      (match ctx.llm.invokeModel st.llmState st.log with
       | (s', .error e) => .err { st with llmState := s' } e
       | (s', .ok resp) =>
         let st := { st with llmState := s' }
         match resp with
         | .assistantToolRequest toolCalls =>
           (validateAndProcessTools ctx n toolCalls st).bind fun st2 =>
             processConversation ctx n st2
         | .content c =>
           let st := addAssistantMessage st c
           let st := emitEvent st (.assistantReceive c)
           processConversation ctx n st)
      (fun stE e => .ok (emitEvent stE (.errorEvt none none (some e))))

/-- `validateAndProcessTools`: iterate over the batch in order.  An
unregistered name is skipped (`continue`).  Otherwise the tool-request
message is appended; an invalid input emits a tool error event,
appends a tool-result carrying the validation error and returns
(abandoning the rest of the batch); a call needing confirmation (when
not in accept-all mode) emits `toolConfirmation` and returns; any
other call is executed and the loop continues. -/
def validateAndProcessTools {σ : Type} (ctx : Ctx σ) (fuel : Nat)
    (toolCalls : List ToolCall) (st : AgentState σ) : Outcome σ :=
  match fuel with
  | 0 => .out
  | n + 1 =>
    match toolCalls with
    | [] => .ok st
    | c :: rest =>
      match ctx.tools.find? (fun t => t.name == c.name) with
      | none => validateAndProcessTools ctx n rest st
      | some tool =>
        let st := addToolRequestMessage st c.name c.toolUseId c.input
        if (tool.validate c.input).1 then
          if !ctx.acceptAll && needsConfirmation c tool then
            .ok (emitEvent st (.toolConfirmation c.toolUseId c.name c.input))
          else
            (executeValidatedTool ctx n c.toolUseId st).bind fun st2 =>
              validateAndProcessTools ctx n rest st2
        else
          let verr := (tool.validate c.input).2
          let st := emitEvent st (.errorEvt (some c.toolUseId) (some c.name) verr)
          .ok (addToolResultMessage st c.toolUseId (.obj verr) verr)

/-- `executeNextTool`: find the first tool-request lacking a matching
tool-result and execute it; do nothing when none is pending. -/
def executeNextTool {σ : Type} (ctx : Ctx σ) (fuel : Nat) (st : AgentState σ) :
    Outcome σ :=
  match fuel with
  | 0 => .out
  | n + 1 =>
    match st.log.find? (fun m => m.type == .toolRequest &&
        !(st.log.any (fun m2 => m2.type == .toolResult &&
            m2.toolUseId? == m.toolUseId?))) with
    | some tr =>
      match tr.toolUseId? with
      | some tid => executeValidatedTool ctx n tid st
      | none => executeValidatedTool ctx n "" st
    | none => .ok st

/-- `executeValidatedTool`: locate the tool-request message for the
given id (silently returning when absent), emit `toolStart`, delegate
execution to the LLM collaborator's `processToolCalls` inside a `try`
(recording the invocation in the `calls` trace), emit `toolEnd`,
append one tool-result per returned entry and continue processing.
The `catch` emits a tool error event (whose `toolName` is absent,
since the source reads the message's nonexistent `name` property),
appends an error tool-result and continues processing. -/
def executeValidatedTool {σ : Type} (ctx : Ctx σ) (fuel : Nat) (toolUseId : String)
    (st : AgentState σ) : Outcome σ :=
  match fuel with
  | 0 => .out
  | n + 1 =>
    match st.log.find? (fun m => m.type == .toolRequest &&
        m.toolUseId? == some toolUseId) with
    | none => .ok st
    | some tr =>
      let use : ToolCall := { name := tr.toolNameD, toolUseId := toolUseId,
                              input := tr.inputD }
      let st := emitEvent st (.toolStart toolUseId tr.toolNameD tr.inputD)
      let st := { st with calls := st.calls ++ [use] }
      tryCatchO
        (match ctx.llm.processToolCalls st.llmState [use] with
         | (s', .error e) => .err { st with llmState := s' } e
         | (s', .ok results) =>
           let st := { st with llmState := s' }
           let st := emitEvent st (.toolEnd toolUseId tr.toolNameD)
           let st := results.foldl
             (fun acc res =>
               addToolResultMessage acc res.toolUseId res.content res.content.errorField)
             st
           processConversation ctx n st)
        (fun stE e =>
          let stE := emitEvent stE (.errorEvt (some toolUseId) none (some e))
          let stE := addToolResultMessage stE toolUseId (.obj (some e)) (some e)
          processConversation ctx n stE)

end

/-- The content of the last assistant message, or `''` when none
exists: the value `run` hands back to the caller. -/
def lastAssistantContent (log : List Message) : String :=
  match (log.filter (fun m => m.type == .assistant)).getLast? with
  | some m => m.textContent
  | none => ""

/-- The public `run(input)`: append the user message, emit `userSent`,
process the conversation, and return the last assistant content.  The
pair carries the engine outcome and the string handed to the caller;
an uncaught exception or divergence produces no return value. -/
def runAgent {σ : Type} (ctx : Ctx σ) (fuel : Nat) (st : AgentState σ)
    (input : String) : Outcome σ × Option String :=
  let st := addUserMessage st input
  let st := emitEvent st (.userSent input)
  match processConversation ctx fuel st with
  | .ok st' => (.ok st', some (lastAssistantContent st'.log))
  | .err st' e => (.err st' e, none)
  | .out => (.out, none)

/-- Cancellation error recorded when a confirmation is declined. -/
def cancelText : String := "Tool use was cancelled by the user."

/-- Synthetic user message appended when a confirmation is declined. -/
def declineText : String := "No, do not execute this tool. Lets do something else."

/-- The state after the declined branch's two appends: a tool-result
carrying the cancellation error, then the synthetic user message. -/
def declinedState {σ : Type} (st : AgentState σ) (toolUseId : String) : AgentState σ :=
  addUserMessage
    (addToolResultMessage st toolUseId (.obj (some cancelText)) (some cancelText))
    declineText

/-- The public `handleToolConfirmation(toolUseId, confirmed)`:
approval executes the (purportedly pending) tool; refusal appends the
cancellation tool-result and the synthetic decline user message, then
resumes processing.  Note the source performs no check that any
confirmation is actually pending for the id. -/
def handleToolConfirmation {σ : Type} (ctx : Ctx σ) (fuel : Nat) (st : AgentState σ)
    (toolUseId : String) (confirmed : Bool) : Outcome σ :=
  match fuel with
  | 0 => .out
  | n + 1 =>
    if confirmed then
      executeValidatedTool ctx n toolUseId st
    else
      processConversation ctx n (declinedState st toolUseId)

/-- Session construction: an empty log, then the system message, then
one user message per provided initial message (`initialize` in the
source, which emits no events). -/
def initAgent {σ : Type} (sys : String) (msgs : List String) (s0 : σ) : AgentState σ :=
  msgs.foldl addUserMessage
    (addSystemMessage { log := [], nextId := 0, events := [], llmState := s0,
                        calls := [] } sys)

/-! ### The event bus

`EventBus.emit` applies `eventListeners.map(callback => callback(data))`
to the listener list of the event (listeners are stored in subscription
order, since `on` pushes to the end of the array).  A JavaScript
callback may throw; a handler is therefore modelled as a function into
`Except String ρ`.  `Array.prototype.map` invokes the callbacks left to
right and an exception from one of them aborts the iteration and
propagates to the caller of `emit`; `emitRun` reproduces exactly that. -/

/-- An event handler: it may return a value or throw. -/
abbrev Handler (δ ρ : Type) := δ → Except String ρ

/-- `EventBus.on`: subscription pushes the callback onto the end of the
listener array, so the list order is subscriber insertion order. -/
def busSubscribe {δ ρ : Type} (hs : List (Handler δ ρ)) (h : Handler δ ρ) :
    List (Handler δ ρ) :=
  hs ++ [h]

/-- `EventBus.emit`: invoke the listeners in order via `map`; a throwing
listener aborts the iteration and its exception propagates. -/
def emitRun {δ ρ : Type} : List (Handler δ ρ) → δ → Except String (List ρ)
  | [], _ => .ok []
  | h :: t, d =>
    match h d with
    | .error e => .error e
    | .ok v =>
      match emitRun t d with
      | .error e => .error e
      | .ok vs => .ok (v :: vs)

/-- Whether an `Except` result is a normal return. -/
def exIsOk {ρ : Type} : Except String ρ → Bool
  | .ok _ => true
  | .error _ => false

/-- The value of a normal `Except` return. -/
def exToOption {ρ : Type} : Except String ρ → Option ρ
  | .ok v => some v
  | .error _ => none

/-! ### Checkers and run contracts used by the theorems -/

/-- Auxiliary scan for `toolResultsWellFormed`: walk the log keeping
the tool-use ids of the requests and results seen so far. -/
def wfAux : List String → List String → List Message → Bool
  | _, _, [] => true
  | reqs, ress, m :: rest =>
    match m with
    | .toolRequest _ _ t _ => wfAux (t :: reqs) ress rest
    | .toolResult _ t _ _ =>
      reqs.contains t && !ress.contains t && wfAux reqs (t :: ress) rest
    | _ => wfAux reqs ress rest

/-- The spec's tool-result invariant as a decidable check: every
tool-result message has a tool-request with the same `toolUseId`
earlier in the log, and no `toolUseId` carries two tool-results. -/
def toolResultsWellFormed (log : List Message) : Bool :=
  wfAux [] [] log

/-- Whether an event trace contains a `toolConfirmation` emission. -/
def hasConfirmationEvt (evts : List Event) : Bool :=
  evts.any fun e =>
    match e with
    | .toolConfirmation _ _ _ => true
    | _ => false

/-- The events of an outcome's state (empty on fuel exhaustion). -/
def outEvents {σ : Type} : Outcome σ → List Event
  | .ok st => st.events
  | .err st _ => st.events
  | .out => []

/-- The log of an outcome's state (empty on fuel exhaustion). -/
def outLog {σ : Type} : Outcome σ → List Message
  | .ok st => st.log
  | .err st _ => st.log
  | .out => []

/-- The `processToolCalls` invocation trace of an outcome's state. -/
def outCalls {σ : Type} : Outcome σ → List ToolCall
  | .ok st => st.calls
  | .err st _ => st.calls
  | .out => []

/-- The return contract of `run`: it must not throw, and on normal
completion the string handed back is the content of the most recent
assistant message of the final log (`''` when none exists, which is
also what an unchanged log from before the call yields). -/
def runContractB {σ : Type} (p : Outcome σ × Option String) : Bool :=
  match p with
  | (.ok st, some r) => r == lastAssistantContent st.log
  | (.out, none) => true
  | _ => false

/-! ### Concrete scenarios used by the counterexample and bug theorems -/

/-- A registered filesystem-write tool that accepts every input; its
name is one the engine's `needsConfirmation` always gates. -/
def fsTool : Tool :=
  { name := "fs_write", validate := fun _ => (true, none),
    requiresAcceptance := fun _ => false }

/-- A stub LLM collaborator (internal state: a call counter) that first
requests one `fs_write` tool call with id `t1` and afterwards replies
with plain content `done`; its tool execution succeeds. -/
def gatedLLM : LLMBehavior Nat :=
  { invokeModel := fun s _ =>
      if s == 0 then (1, .ok (.assistantToolRequest [⟨"fs_write", "t1", "x"⟩]))
      else (s + 1, .ok (.content "done")),
    processToolCalls := fun s _ => (s, .ok [⟨"t1", .obj none⟩]) }

/-- Session config for the gated-tool scenario (not in accept-all mode). -/
def gatedCtx : Ctx Nat := { tools := [fsTool], acceptAll := false, llm := gatedLLM }

/-- A freshly initialized session: one system message, no initial user
messages. -/
def baseState : AgentState Nat := initAgent "sys" [] 0

/-- One `run("do it")` turn of the gated-tool scenario. -/
def c1Run : Outcome Nat × Option String := runAgent gatedCtx 20 baseState "do it"

/-- A registered tool under a name the engine does not hardcode, whose
own `requiresAcceptance` predicate returns true for every input. -/
def calcTool : Tool :=
  { name := "mycalc", validate := fun _ => (true, none),
    requiresAcceptance := fun _ => true }

/-- A stub LLM that first requests one `mycalc` call with id `t1` and
afterwards replies with plain content `done`. -/
def calcLLM : LLMBehavior Nat :=
  { invokeModel := fun s _ =>
      if s == 0 then (1, .ok (.assistantToolRequest [⟨"mycalc", "t1", "x"⟩]))
      else (s + 1, .ok (.content "done")),
    processToolCalls := fun s _ => (s, .ok [⟨"t1", .obj none⟩]) }

/-- Session config for the confirmation-requesting tool scenario. -/
def calcCtx : Ctx Nat := { tools := [calcTool], acceptAll := false, llm := calcLLM }

/-- One `run("do it")` turn of the `mycalc` scenario. -/
def c5Run : Outcome Nat × Option String := runAgent calcCtx 20 baseState "do it"

/-- An LLM collaborator that always throws. -/
def downLLM : LLMBehavior Unit :=
  { invokeModel := fun s _ => (s, .error "backend down"),
    processToolCalls := fun s _ => (s, .error "backend down") }

/-- A toolless session config over the throwing collaborator. -/
def downCtx : Ctx Unit := { tools := [], acceptAll := false, llm := downLLM }

/-- A freshly initialized session for the throwing collaborator. -/
def ghostState : AgentState Unit := initAgent "sys" [] ()

/-- Resolving a confirmation that was never requested, with
`confirmed = false`. -/
def c2Out : Outcome Unit := handleToolConfirmation downCtx 10 ghostState "ghost" false

/-- A registered tool that rejects every input with a validation
error (Scenario D of the spec). -/
def badTool : Tool :=
  { name := "badtool", validate := fun _ => (false, some "bad input"),
    requiresAcceptance := fun _ => false }

/-- Session config containing only the always-rejecting tool. -/
def badCtx : Ctx Unit := { tools := [badTool], acceptAll := false, llm := downLLM }

/-- A handler that always throws. -/
def boomHandler : Handler Nat Nat := fun _ => .error "boom"

/-- A handler that returns its payload. -/
def echoHandler : Handler Nat Nat := fun n => .ok n

/-! ### Theorems -/

/-- Claim C4: for every message log, the next action computed by the
conversation manager is exactly the pure function of the kind of the
most recent non-`info` message given by the spec's table: empty log or
`system` tail yields AwaitingUser, `user` yields InvokeModel,
`assistant` yields AwaitingUser, `tool-request` yields RunTool,
`tool-result` yields InvokeModel, and trailing `info` messages are
transparent (an all-`info` or empty log yields AwaitingUser). -/
theorem getNextAction_matches_table (log : List Message) :
    getNextAction log = specNextAction log := by
  induction log using List.reverseRecOn with
  | nil => rfl
  | append_singleton xs x _ =>
    have hlast : (xs ++ [x]).getLast? = some x := List.getLast?_concat xs
    have hdrop : (xs ++ [x]).dropLast = xs := List.dropLast_concat
    have hrev : (xs ++ [x]).reverse = x :: xs.reverse := by
      simp
    unfold getNextAction specNextAction
    rw [hlast, hdrop, hrev, List.find?]
    cases x with
    | system i c => rfl
    | user i c => rfl
    | assistant i c => rfl
    | toolRequest i n t inp => rfl
    | toolResult i t c e => rfl
    | info i c =>
      cases hf : xs.reverse.find? (fun m => m.type != .info) with
      | none => rfl
      | some p => cases p <;> rfl

/-- Sequencing two non-throwing computations does not throw. -/
theorem isErr_bind {σ : Type} {x : Outcome σ} {f : AgentState σ → Outcome σ}
    (hx : x.isErr = false) (hf : ∀ a, (f a).isErr = false) :
    (x.bind f).isErr = false := by
  cases x with
  | ok st => exact hf st
  | err st e => exact absurd hx (by simp [Outcome.isErr])
  | out => rfl

/-- A try/catch whose handler does not throw does not throw. -/
theorem isErr_tryCatchO {σ : Type} {x : Outcome σ}
    {h : AgentState σ → String → Outcome σ}
    (hh : ∀ st e, (h st e).isErr = false) : (tryCatchO x h).isErr = false := by
  cases x with
  | ok st => rfl
  | err st e => exact hh st e
  | out => rfl

/-- No engine entry point ever lets an exception escape: every throw
site (the LLM collaborator's `invokeModel` and `processToolCalls`) sits
inside a `try` whose `catch` recovers, and the recovery paths
themselves do not throw.  Proved for all fuel by induction, jointly for
the five mutually recursive procedures. -/
theorem engine_noThrow {σ : Type} (ctx : Ctx σ) :
    ∀ fuel : Nat,
      (∀ st : AgentState σ, (processConversation ctx fuel st).isErr = false)
    ∧ (∀ st : AgentState σ, (sendToLLM ctx fuel st).isErr = false)
    ∧ (∀ (toolCalls : List ToolCall) (st : AgentState σ),
         (validateAndProcessTools ctx fuel toolCalls st).isErr = false)
    ∧ (∀ st : AgentState σ, (executeNextTool ctx fuel st).isErr = false)
    ∧ (∀ (tid : String) (st : AgentState σ),
         (executeValidatedTool ctx fuel tid st).isErr = false) := by
  intro fuel
  induction fuel with
  | zero =>
    exact ⟨fun _ => rfl, fun _ => rfl, fun _ _ => rfl, fun _ => rfl, fun _ _ => rfl⟩
  | succ n ih =>
    obtain ⟨ihPC, ihSend, ihVPT, ihENT, ihEVT⟩ := ih
    refine ⟨?_, ?_, ?_, ?_, ?_⟩
    · intro st
      unfold processConversation
      cases hga : getNextAction st.log with
      | sendUserInputToLLM => simpa [hga] using ihSend st
      | sendToolResultToLLM => simpa [hga] using ihSend st
      | executeLocalTool => simpa [hga] using ihENT st
      | waitForLocalUserInput => simp [hga, Outcome.isErr]
    · intro st
      unfold sendToLLM
      exact isErr_tryCatchO (fun _ _ => rfl)
    · intro toolCalls st
      unfold validateAndProcessTools
      cases toolCalls with
      | nil => rfl
      | cons c rest =>
        cases hfind : ctx.tools.find? (fun t => t.name == c.name) with
        | none => simpa [hfind] using ihVPT rest st
        | some tool =>
          simp only [hfind]
          cases hval : (tool.validate c.input).1 with
          | true =>
            cases hconf : (!ctx.acceptAll && needsConfirmation c tool) with
            | true => simp [hval, hconf, Outcome.isErr]
            | false =>
              simp only [hval, hconf, if_true, if_false, Bool.false_eq_true]
              exact isErr_bind (ihEVT _ _) (fun a => ihVPT rest a)
          | false => simp [hval, Outcome.isErr]
    · intro st
      unfold executeNextTool
      cases hfind : st.log.find? (fun m => m.type == .toolRequest &&
          !(st.log.any (fun m2 => m2.type == .toolResult &&
              m2.toolUseId? == m.toolUseId?))) with
      | none => simp [hfind, Outcome.isErr]
      | some tr =>
        cases htid : tr.toolUseId? with
        | some tid => simpa [hfind, htid] using ihEVT tid st
        | none => simpa [hfind, htid] using ihEVT "" st
    · intro tid st
      unfold executeValidatedTool
      cases hfind : st.log.find? (fun m => m.type == .toolRequest &&
          m.toolUseId? == some tid) with
      | none => simp [hfind, Outcome.isErr]
      | some tr =>
        simp only [hfind]
        exact isErr_tryCatchO (fun stE e => ihPC _)

/-- Claim C6: for every session configuration, every internal LLM
collaborator state and behaviour (including throwing ones), every
starting state and every input, `run(input)` satisfies its return
contract: it never throws to the caller — collaborator failures are
absorbed by the internal catch handlers, which only publish error
notifications — and on completion it returns the content of the most
recent assistant message of the log (the empty string when none
exists, i.e. possibly unchanged from before the call). -/
theorem run_never_throws {σ : Type} (ctx : Ctx σ) (fuel : Nat) (st : AgentState σ)
    (input : String) : runContractB (runAgent ctx fuel st input) = true := by
  have h := (engine_noThrow ctx fuel).1
    (emitEvent (addUserMessage st input) (.userSent input))
  unfold runAgent
  cases hpc : processConversation ctx fuel
      (emitEvent (addUserMessage st input) (.userSent input)) with
  | ok st' => simp [hpc, runContractB]
  | err st' e => rw [hpc] at h; exact absurd h (by simp [Outcome.isErr])
  | out => simp [hpc, runContractB]

/-- Claim C7, counterexample: `emit` is not exception-safe.  With two
subscribed handlers of which the first throws, `emit` propagates the
first handler's error to the publisher (and, by the `map` semantics it
implements, the second handler is never invoked), refuting both the
never-throws and the isolation part of the claim. -/
theorem emit_throws_on_handler_error :
    emitRun (busSubscribe (busSubscribe [] boomHandler) echoHandler) 5 =
      .error "boom" := rfl

/-- Claim C7 as amended: `emit` invokes the subscribed handlers in
insertion order; when no handler throws it returns their results in
that order and does not throw, but when a handler throws, the handlers
after it are not invoked and the error propagates to the publisher. -/
theorem emit_order_and_abort {δ ρ : Type} (hs1 hs2 : List (Handler δ ρ))
    (h : Handler δ ρ) (d : δ) (e : String)
    (hok : ∀ g ∈ hs1, exIsOk (g d) = true) (herr : h d = .error e) :
    emitRun hs1 d = .ok (hs1.filterMap (fun g => exToOption (g d)))
  ∧ emitRun (hs1 ++ h :: hs2) d = .error e := by
  induction hs1 with
  | nil =>
    refine ⟨rfl, ?_⟩
    simp only [List.nil_append, emitRun, herr]
  | cons g t iht =>
    have hg : exIsOk (g d) = true := hok g (List.mem_cons_self g t)
    have ht : ∀ x ∈ t, exIsOk (x d) = true :=
      fun x hx => hok x (List.mem_cons_of_mem g hx)
    obtain ⟨ih1, ih2⟩ := iht ht
    cases hgd : g d with
    | error e' => rw [hgd] at hg; exact absurd hg (by simp [exIsOk])
    | ok v =>
      constructor
      · simp [emitRun, hgd, ih1, exToOption, List.filterMap_cons]
      · simp [emitRun, hgd, ih2]

/-- Witness for the amended C7 theorem at concrete handlers. -/
theorem emit_order_and_abort_witness :
    emitRun [echoHandler] 5 =
      .ok ([echoHandler].filterMap (fun g => exToOption (g 5)))
  ∧ emitRun ([echoHandler] ++ boomHandler :: [echoHandler]) 5 = .error "boom" :=
  emit_order_and_abort [echoHandler] [echoHandler] boomHandler 5 "boom"
    (by intro g hg
        rw [List.mem_singleton] at hg
        subst hg
        rfl)
    rfl

/-- Claim C1 fails on the code: in the gated-tool scenario (a
registered `fs_write` tool, not in accept-all mode), one `run("do it")`
call publishes the `toolConfirmation` request and then, with no
confirmation decision ever applied, immediately emits `toolStart`,
invokes the collaborator's `processToolCalls` for the gated call (see
the `calls` trace) and appends further messages, because `sendToLLM`
unconditionally continues processing after `validateAndProcessTools`
returns at the gate and the tool-request log tail then routes to
`executeNextTool`. -/
theorem confirmationGate_executes_anyway :
    outEvents c1Run.1 =
      [.userSent "do it", .toolConfirmation "t1" "fs_write" "x",
       .toolStart "t1" "fs_write" "x", .toolEnd "t1" "fs_write",
       .assistantReceive "done"]
  ∧ outCalls c1Run.1 = [⟨"fs_write", "t1", "x"⟩]
  ∧ (outLog c1Run.1).map Message.type =
      [.system, .user, .toolRequest, .toolResult, .assistant]
  ∧ c1Run.2 = some "done" :=
  ⟨rfl, rfl, rfl, rfl⟩

/-- Claim C2 fails on the code: `handleToolConfirmation` performs no
pending-gate check, so resolving a never-requested id on a fresh
session appends a tool-result whose `toolUseId` has no prior
tool-request, a state reachable by one `run`-free API call and
violating the claimed log invariant. -/
theorem toolResult_invariant_violated :
    c2Out.isErr = false
  ∧ outLog c2Out =
      [.system 0 "sys",
       .toolResult 1 "ghost" (.obj (some cancelText)) (some cancelText),
       .user 2 declineText]
  ∧ toolResultsWellFormed (outLog c2Out) = false :=
  ⟨rfl, rfl, rfl⟩

/-- Claim C3 fails on the code: resolving a confirmation for a
`toolUseId` with no pending gate does not fail loudly; with
`confirmed = true` it silently returns with the session state
completely unchanged (`executeValidatedTool` finds no matching
tool-request and returns), and the declined branch mutates the log
unconditionally (see the C2 theorem). -/
theorem resolve_nonpending_is_silent :
    handleToolConfirmation downCtx 10 ghostState "ghost" true = .ok ghostState :=
  rfl

/-- Claim C5, counterexample: a registered tool (`mycalc`) whose own
`requiresAcceptance` predicate returns true for the given input is not
gated when not in accept-all mode: the run fires no `toolConfirmation`
event and executes the call immediately, because `needsConfirmation`
consults the predicate only for the hardcoded name `execute_bash`. -/
theorem predicate_true_not_gated :
    calcTool.requiresAcceptance "x" = true
  ∧ calcCtx.acceptAll = false
  ∧ outEvents c5Run.1 =
      [.userSent "do it", .toolStart "t1" "mycalc" "x", .toolEnd "t1" "mycalc",
       .assistantReceive "done"]
  ∧ hasConfirmationEvt (outEvents c5Run.1) = false
  ∧ outCalls c5Run.1 = [⟨"mycalc", "t1", "x"⟩] :=
  ⟨rfl, rfl, rfl, rfl, rfl⟩

/-- Claim C5 as amended: when not in accept-all mode, a validated call
of the batch is gated exactly when `needsConfirmation` holds, i.e. when
the call names `fs_write`, or names `execute_bash` and the tool's own
`requiresAcceptance(input)` predicate holds — the predicate of a tool
under any other name is ignored; when gated, the engine publishes
`toolConfirmationRequested` and returns from the batch loop, having
appended only the tool-request (though the engine does not then remain
suspended — see claim C1); otherwise it proceeds to execute the call. -/
theorem gating_characterization {σ : Type} (ctx : Ctx σ) (n : Nat)
    (st : AgentState σ) (c : ToolCall) (rest : List ToolCall) (tool : Tool)
    (hfind : ctx.tools.find? (fun t => t.name == c.name) = some tool)
    (hvalid : (tool.validate c.input).1 = true)
    (hacc : ctx.acceptAll = false) :
    needsConfirmation c tool =
      (c.name == "fs_write" || (c.name == "execute_bash" &&
        tool.requiresAcceptance c.input))
  ∧ validateAndProcessTools ctx (n + 1) (c :: rest) st =
      (if needsConfirmation c tool then
        .ok { st with
          log := st.log ++ [.toolRequest st.nextId c.name c.toolUseId c.input],
          nextId := st.nextId + 1,
          events := st.events ++ [.toolConfirmation c.toolUseId c.name c.input] }
      else
        (executeValidatedTool ctx n c.toolUseId
            (addToolRequestMessage st c.name c.toolUseId c.input)).bind
          (fun st2 => validateAndProcessTools ctx n rest st2)) := by
  constructor
  · cases h1 : (c.name == "execute_bash" && tool.requiresAcceptance c.input) <;>
      cases h2 : (c.name == "fs_write") <;>
        simp_all [needsConfirmation]
  · conv_lhs => unfold validateAndProcessTools
    simp only [hfind]
    cases hnc : needsConfirmation c tool <;>
      simp [hvalid, hacc, hnc, addToolRequestMessage, emitEvent]

/-- Witness for the amended C5 theorem: the `fs_write` call of the
gated scenario is gated and the batch returns at the confirmation. -/
theorem gating_characterization_witness :
    needsConfirmation ⟨"fs_write", "t9", "x"⟩ fsTool =
      ((ToolCall.mk "fs_write" "t9" "x").name == "fs_write" ||
        ((ToolCall.mk "fs_write" "t9" "x").name == "execute_bash" &&
          fsTool.requiresAcceptance (ToolCall.mk "fs_write" "t9" "x").input))
  ∧ validateAndProcessTools gatedCtx (3 + 1) [⟨"fs_write", "t9", "x"⟩] baseState =
      (if needsConfirmation ⟨"fs_write", "t9", "x"⟩ fsTool then
        .ok { baseState with
          log := baseState.log ++
            [.toolRequest baseState.nextId "fs_write" "t9" "x"],
          nextId := baseState.nextId + 1,
          events := baseState.events ++ [.toolConfirmation "t9" "fs_write" "x"] }
      else
        (executeValidatedTool gatedCtx 3 "t9"
            (addToolRequestMessage baseState "fs_write" "t9" "x")).bind
          (fun st2 => validateAndProcessTools gatedCtx 3 [] st2)) :=
  gating_characterization gatedCtx 3 baseState ⟨"fs_write", "t9", "x"⟩ [] fsTool
    rfl rfl rfl

/-- Claim C8: when the batch loop reaches a call whose tool is
registered but whose `validate(input)` is not ok, the engine appends
the tool-request, publishes a tool-failure notification carrying the
validation error, appends a tool-result carrying that error, and
returns: the result state does not depend on the remaining calls of
the batch (they are abandoned for this iteration), the execution path
is never entered for the call (the `calls` trace and the event trace
gain no `toolStart`), and the tool-result's error field is exactly the
validation error. -/
theorem invalid_call_aborts_batch {σ : Type} (ctx : Ctx σ) (n : Nat)
    (st : AgentState σ) (c : ToolCall) (rest : List ToolCall) (tool : Tool)
    (hfind : ctx.tools.find? (fun t => t.name == c.name) = some tool)
    (hinvalid : (tool.validate c.input).1 = false) :
    validateAndProcessTools ctx (n + 1) (c :: rest) st =
      .ok { st with
        log := st.log ++
          [.toolRequest st.nextId c.name c.toolUseId c.input,
           .toolResult (st.nextId + 1) c.toolUseId
             (.obj (tool.validate c.input).2) (tool.validate c.input).2],
        nextId := st.nextId + 2,
        events := st.events ++
          [.errorEvt (some c.toolUseId) (some c.name) (tool.validate c.input).2] } := by
  conv_lhs => unfold validateAndProcessTools
  simp [hfind, hinvalid, addToolRequestMessage, emitEvent, addToolResultMessage,
    wrapJson, List.append_assoc]

/-- Witness for the C8 theorem: a tool whose validation rejects the
input (Scenario D of the spec). -/
theorem invalid_call_aborts_batch_witness :
    validateAndProcessTools badCtx (4 + 1) [⟨"badtool", "t1", "x"⟩, ⟨"badtool", "t2", "y"⟩]
        ghostState =
      .ok { ghostState with
        log := ghostState.log ++
          [.toolRequest ghostState.nextId "badtool" "t1" "x",
           .toolResult (ghostState.nextId + 1) "t1"
             (.obj (badTool.validate "x").2) (badTool.validate "x").2],
        nextId := ghostState.nextId + 2,
        events := ghostState.events ++
          [.errorEvt (some "t1") (some "badtool") (badTool.validate "x").2] } :=
  invalid_call_aborts_batch badCtx 4 ghostState ⟨"badtool", "t1", "x"⟩
    [⟨"badtool", "t2", "y"⟩] badTool rfl rfl

/-- Claim C9: declining a pending confirmation by
`handleToolConfirmation(toolUseId, false)` appends a tool-result
carrying the cancellation error for that id, then the synthetic user
message stating the tool call was declined, and then resumes
processing from that state, whose next action is InvokeModel since the
log tail is now a user message.  (Proved for every session state, so
in particular for one with a pending confirmation.) -/
theorem decline_appends_and_resumes {σ : Type} (ctx : Ctx σ) (n : Nat)
    (st : AgentState σ) (tid : String) :
    handleToolConfirmation ctx (n + 1) st tid false =
      processConversation ctx n (declinedState st tid)
  ∧ (declinedState st tid).log = st.log ++
      [.toolResult st.nextId tid (.obj (some cancelText)) (some cancelText),
       .user (st.nextId + 1) declineText]
  ∧ getNextAction (declinedState st tid).log = .sendUserInputToLLM := by
  refine ⟨rfl, ?_, ?_⟩
  · simp [declinedState, addUserMessage, addToolResultMessage, wrapJson]
  · simp [getNextAction, declinedState, addUserMessage, addToolResultMessage,
      List.getLast?_concat, Message.type]

/-- Claim C10: a tool call whose name matches no registered tool is
silently skipped: the batch loop continues with the remaining calls
from an unchanged state, appending no message, publishing no event and
recording no execution for the unmatched call. -/
theorem unknown_tool_skipped {σ : Type} (ctx : Ctx σ) (n : Nat)
    (st : AgentState σ) (c : ToolCall) (rest : List ToolCall)
    (hfind : ctx.tools.find? (fun t => t.name == c.name) = none) :
    validateAndProcessTools ctx (n + 1) (c :: rest) st =
      validateAndProcessTools ctx n rest st := by
  conv_lhs => unfold validateAndProcessTools
  simp only [hfind]

/-- Witness for the C10 theorem: a call naming an unregistered tool in
a toolless session. -/
theorem unknown_tool_skipped_witness :
    validateAndProcessTools downCtx (4 + 1) [⟨"nosuch", "t1", "x"⟩] ghostState =
      validateAndProcessTools downCtx 4 [] ghostState :=
  unknown_tool_skipped downCtx 4 ghostState ⟨"nosuch", "t1", "x"⟩ [] rfl

end OrangeAgent
